import Mathlib

/-!
Shallow embedding of the BabelTest core (babeltest/adapters/base.py,
babeltest/adapters/python.py, babeltest/adapters/javascript.py,
babeltest/runner.py, babeltest/async_runner.py, babeltest/compiler/ir.py).

Values exchanged with the harness are JSON-like; `JValue` models them.
Python dictionaries are modelled as association lists with unique keys
(Python dicts cannot hold duplicate keys); Python `==` is modelled by
`pyEq`, which compares dictionaries by key set rather than field order,
as Python does.  Mismatch-description strings produced by the matcher
are elided (claims only concern the boolean verdicts); the messages
built directly by `run_test` are modelled exactly.
-/

namespace BabelTest

/-- JSON-like runtime values (the domain of `given`, `expect.value`,
actual results and mock payloads). -/
inductive JValue where
  | null
  | bool (b : Bool)
  | int (n : Int)
  | str (s : String)
  | list (xs : List JValue)
  | obj (fields : List (String × JValue))
deriving Repr

-- Python `==` on JSON-like values.  Lists compare pointwise; dicts
-- compare by length plus per-key value equality (equivalent to Python's
-- key-set comparison on duplicate-free dicts).
mutual

def pyEq (a b : JValue) : Bool :=
  match a, b with
  | .null, .null => true
  | .bool x, .bool y => x == y
  | .int x, .int y => x == y
  | .str x, .str y => x == y
  | .list xs, .list ys => pyEqList xs ys
  | .obj xs, .obj ys => xs.length == ys.length && pyEqFields xs ys
  | _, _ => false
termination_by sizeOf b

def pyEqList (xs ys : List JValue) : Bool :=
  match xs, ys with
  | [], [] => true
  | x :: xs, y :: ys => pyEq x y && pyEqList xs ys
  | _, _ => false
termination_by sizeOf ys

def pyEqFields (xs ys : List (String × JValue)) : Bool :=
  match ys with
  | [] => true
  | (k, v) :: rest =>
    (match List.lookup k xs with
     | some w => pyEq w v
     | none => false) && pyEqFields xs rest
termination_by sizeOf ys

end

/-- Model of `Adapter._to_dict`: a dict passes through; other JSON-like values
have no `__dict__`/`model_dump`, so conversion fails.  (Dataclass and
pydantic normalization of live objects maps into `obj` in this model.) -/
def toDict : JValue → Option (List (String × JValue))
  | .obj fields => some fields
  | _ => none

-- `Adapter._check_contains` and `Adapter._check_list_contains`
-- (mismatch-path strings elided; only the boolean verdict is modelled).
-- `checkPairs` is the `for key, expected_val in expected.items()` loop;
-- `checkListAll` is the `for i, expected_item in enumerate(expected)`
-- loop of `_check_list_contains`.
mutual

def checkContains (actual expected : JValue) : Bool :=
  match expected with
  | .obj kvs =>
    (match toDict actual with
     | some ad => checkPairs ad kvs
     | none => false)
  | .list es => checkListContains actual es
  | _ => pyEq actual expected
termination_by (sizeOf expected, 0)

def checkPairs (ad kvs : List (String × JValue)) : Bool :=
  match kvs with
  | [] => true
  | (k, ev) :: rest =>
    (match List.lookup k ad with
     | some av =>
       (match ev with
        | .obj fs => checkContains av (.obj fs)
        | .list es => checkListContains av es
        | _ => pyEq av ev)
     | none => false) && checkPairs ad rest
termination_by (sizeOf kvs, 1)

def checkListContains (actual : JValue) (es : List JValue) : Bool :=
  match actual with
  | .list xs => checkListAll xs es
  | _ => false
termination_by (sizeOf es, 1)

def checkListAll (xs es : List JValue) : Bool :=
  match es with
  | [] => true
  | e :: rest =>
    (match e with
     | .obj fs => xs.any fun x => checkContains x (.obj fs)
     | _ => xs.any fun x => pyEq x e) && checkListAll xs rest
termination_by (sizeOf es, 0)

end

/-- Model of `babeltest.compiler.ir.ExpectationType`. -/
inductive ExpectationType where
  | EXACT
  | CONTAINS
  | TYPE
  | NULL
  | NOT_NULL
  | TRUE
  | FALSE
deriving Repr, DecidableEq

/-- Model of `babeltest.compiler.ir.Expectation` (defaults: `type = EXACT`,
`value = None`). -/
structure Expectation where
  type : ExpectationType := .EXACT
  value : JValue := .null
deriving Repr

/-- Model of `babeltest.compiler.ir.ThrowsExpectation` (`code` may be int or
str in Python; both embed as `JValue`). -/
structure ThrowsExpectation where
  type : Option String := none
  message : Option String := none
  code : Option JValue := none
deriving Repr

/-- Model of `babeltest.compiler.ir.MockSpec` (`given` is `dict | str`, default
`"any"`; both embed as `JValue`). -/
structure MockSpec where
  target : String
  given : JValue := .str "any"
  returns : Option JValue := none
  throws : Option ThrowsExpectation := none
deriving Repr

/-- Model of `babeltest.compiler.ir.CalledAssertion`. -/
structure CalledAssertion where
  target : String
  with_args : Option (List (String × JValue)) := none
  times : Option Nat := none
deriving Repr

/-- Model of `babeltest.compiler.ir.MutatesSpec`. -/
structure MutatesSpec where
  called : List CalledAssertion := []
deriving Repr

/-- Model of `babeltest.compiler.ir.TestSpec`. -/
structure TestSpec where
  target : String
  description : Option String := none
  given : List (String × JValue) := []
  types : List (String × String) := []
  expect : Option Expectation := none
  throws : Option ThrowsExpectation := none
  mocks : List MockSpec := []
  mutates : Option MutatesSpec := none
  timeout_ms : Option Nat := none
deriving Repr

/-- Model of `babeltest.compiler.ir.SuiteSpec`. -/
structure SuiteSpec where
  name : String
  target : Option String := none
  tests : List TestSpec := []
deriving Repr

/-- Model of `babeltest.compiler.ir.IRDocument`. -/
structure IRDocument where
  version : String := "0.1"
  suites : List SuiteSpec := []
  tests : List TestSpec := []
deriving Repr

/-- Model of `babeltest.adapters.base.ResultStatus`. -/
inductive ResultStatus where
  | PASSED
  | FAILED
  | ERROR
  | SKIPPED
deriving Repr, DecidableEq

/-- A raised Python exception as the expectation code observes it:
`type(e).__name__` and `str(e)`. -/
structure PyExc where
  typeName : String
  message : String
deriving Repr, DecidableEq

/-- Model of `babeltest.adapters.base.TestResult` (wall-clock `duration_ms` and
captured `logs` are elided — they are real-time/IO observables). -/
structure TestResult where
  test : TestSpec
  status : ResultStatus
  message : Option String := none
  actual_value : Option JValue := none
  expected_value : Option JValue := none
  exception : Option PyExc := none
deriving Repr

/-- Python `type(v).__name__` on JSON-like values. -/
def typeName : JValue → String
  | .null => "NoneType"
  | .bool _ => "bool"
  | .int _ => "int"
  | .str _ => "str"
  | .list _ => "list"
  | .obj _ => "dict"

/-- Model of `Adapter._check_expectation` (mismatch messages elided; only the
boolean verdict is modelled). -/
def checkExpectation (actual : JValue) (expect : Expectation) : Bool :=
  match expect.type with
  | .EXACT => pyEq actual expect.value
  | .CONTAINS => checkContains actual expect.value
  | .TYPE =>
    (match expect.value with
     | .str s => typeName actual == s
     | _ => false)
  | .NULL =>
    (match actual with
     | .null => true
     | _ => false)
  | .NOT_NULL =>
    (match actual with
     | .null => false
     | _ => true)
  | .TRUE =>
    (match actual with
     | .bool b => b
     | _ => false)
  | .FALSE =>
    (match actual with
     | .bool b => !b
     | _ => false)

/-- Python substring containment (`needle in hay`). -/
def isSubstring (needle hay : String) : Bool :=
  (List.range (hay.length + 1)).any fun i => (hay.drop i).startsWith needle

/-- Python truthiness of an `Optional[str]` field: `None` and the empty
string are falsy. -/
def truthyStr : Option String → Bool
  | none => false
  | some s => s != ""

/-- Model of `Adapter._check_throws` (mismatch messages elided).  Mirrors the
Python guards `if throws.type and exc_type != throws.type` and
`if throws.message and throws.message not in str(exc)`. -/
def checkThrows (exc : PyExc) (throws : ThrowsExpectation) : Bool :=
  if truthyStr throws.type && exc.typeName != throws.type.getD "" then
    false
  else if truthyStr throws.message
      && !(isSubstring (throws.message.getD "") exc.message) then
    false
  else
    true

/-- How Python renders an `Optional[str]` inside an f-string. -/
def pyStrOpt : Option String → String
  | none => "None"
  | some s => s

/-- Outcome of the target call itself: a returned value or a raised
exception. -/
inductive CallResult where
  | ok (v : JValue)
  | exc (e : PyExc)
deriving Repr

/-- One invocation of the resolved target: how long it runs and what it
produces.  (Wall-clock time is abstracted into `duration_ms` so the
timeout race of `async_runner.run_with_timeout` is statable.) -/
structure Call where
  duration_ms : Nat
  result : CallResult
deriving Repr

/-- What `async_runner.run_with_timeout` delivers to `run_test`: the
value, the target's own exception, or `TimeoutError(timeout_ms)`. -/
inductive InvokeOutcome where
  | value (v : JValue)
  | timeout (t : Nat)
  | raised (e : PyExc)
deriving Repr

/-- Model of `async_runner.run_with_timeout`: with no timeout the call's own
outcome passes through; with a timeout, a call running past the budget
yields `TimeoutError(timeout_ms)` carrying exactly the budget that was
passed in (`_run_sync` and `_run_async` both raise
`TimeoutError(timeout_ms)`). -/
def runWithTimeout (c : Call) : Option Nat → InvokeOutcome
  | none =>
    (match c.result with
     | .ok v => .value v
     | .exc e => .raised e)
  | some t =>
    if t < c.duration_ms then .timeout t
    else
      (match c.result with
       | .ok v => .value v
       | .exc e => .raised e)

/-- Timeout selection of `Adapter.run_test` (line 100): test-specific timeout beats the
adapter default. -/
def effectiveTimeout (test : TestSpec) (adapterDefault : Option Nat) : Option Nat :=
  match test.timeout_ms with
  | some t => some t
  | none => adapterDefault

/-- Model of `Adapter.run_test` (base adapter).  The resolved call's behaviour is
the `Call` argument; `adapterDefault` is `default_timeout_ms`. -/
def runTestBase (test : TestSpec) (adapterDefault : Option Nat) (c : Call) : TestResult :=
  match runWithTimeout c (effectiveTimeout test adapterDefault) with
  | .value result =>
    (match test.throws with
     | some throws =>
       { test := test
         status := .FAILED
         message := some ("Expected exception " ++ pyStrOpt throws.type ++ " but call succeeded")
         actual_value := some result }
     | none =>
       (match test.expect with
        | some expect =>
          { test := test
            status := if checkExpectation result expect then .PASSED else .FAILED
            actual_value := some result
            expected_value := some expect.value }
        | none => { test := test, status := .PASSED }))
  | .timeout t =>
    { test := test
      status := .FAILED
      message := some ("Test timed out after " ++ toString t ++ "ms") }
  | .raised e =>
    (match test.throws with
     | some throws =>
       { test := test
         status := if checkThrows e throws then .PASSED else .FAILED
         exception := some e }
     | none =>
       { test := test
         status := .ERROR
         message := some (e.typeName ++ ": " ++ e.message)
         exception := some e })

/-- Model of `PythonAdapter.run_test`: installs mocks first — the first mock
that fails to install aborts the test with ERROR before any invocation;
otherwise the body duplicates the base `run_test` logic verbatim.
`mockFailure` abstracts the first failed installation as
`(mock_spec.target, str(e))`. -/
def runTestPython (test : TestSpec) (adapterDefault : Option Nat)
    (mockFailure : Option (String × String)) (c : Call) : TestResult :=
  match mockFailure with
  | some (mtarget, err) =>
    { test := test
      status := .ERROR
      message := some ("Failed to install mock for " ++ mtarget ++ ": " ++ err) }
  | none => runTestBase test adapterDefault c

/-- Python `test.target.startswith(".")` as the runner uses it: the
prefix tested is always the single character `"."`, embedded as a
first-character check. -/
def startsWithDot (s : String) : Bool :=
  match s.data with
  | c :: _ => c == '.'
  | [] => false

/-- Loop body of `run_tests` for one suite test (runner.py lines
50-70): a relative target is rewritten through `model_copy` against the
suite default, a relative target without a suite default yields a
structural ERROR result, an absolute target runs unchanged.  The guard
`if suite.target:` is Python truthiness, so an empty-string suite
target counts as absent. -/
def suiteStep (runTest : TestSpec → TestResult) (suiteTarget : Option String)
    (test : TestSpec) : TestResult :=
  if startsWithDot test.target then
    if truthyStr suiteTarget then
      runTest { test with target := suiteTarget.getD "" ++ test.target }
    else
      { test := test
        status := .ERROR
        message := some ("Relative target '" ++ test.target ++ "' but suite has no default target") }
  else
    runTest test

/-- Model of `runner.run_tests`: top-level tests first, then each suite's tests,
in declaration order.  Lifecycle notifications have no effect on the
result list and are elided. -/
def run_tests (runTest : TestSpec → TestResult) (ir : IRDocument) : List TestResult :=
  ir.tests.map runTest
    ++ ir.suites.flatMap fun suite => suite.tests.map (suiteStep runTest suite.target)

/-- Model of `babeltest.config.InstanceLifecycle`. -/
inductive InstanceLifecycle where
  | SHARED
  | PER_SUITE
  | PER_TEST
deriving Repr, DecidableEq

/-- Mutable registry state of `PythonAdapter`: the instance cache keyed
by fully-qualified class path.  Object identity is modelled by tagging
each constructed instance with a fresh counter value (`nextId`). -/
structure RegistryState where
  instance_cache : List (String × Nat) := []
  nextId : Nat := 0
deriving Repr

/-- Whether `_try_factory` (a conventional factory file defining the
snake-cased factory function) and `_try_zero_arg` (a zero-argument
constructor) succeed for a given class path.  Each success builds a
fresh object. -/
structure BuildEnv where
  factoryWorks : String → Bool
  zeroArgWorks : String → Bool

/-- Model of `PythonAdapter._get_instance`: cache hit (skipped under PER_TEST),
then factory, then zero-arg constructor, else `ConstructionError`
(modelled as `none`).  Constructed instances are cached unless the
lifecycle is PER_TEST. -/
def getInstance (lifecycle : InstanceLifecycle) (env : BuildEnv) (classPath : String)
    (s : RegistryState) : Option Nat × RegistryState :=
  match (if lifecycle != .PER_TEST then List.lookup classPath s.instance_cache else none) with
  | some inst => (some inst, s)
  | none =>
    if env.factoryWorks classPath then
      (some s.nextId,
       { instance_cache :=
           if lifecycle != .PER_TEST then (classPath, s.nextId) :: s.instance_cache
           else s.instance_cache
         nextId := s.nextId + 1 })
    else if env.zeroArgWorks classPath then
      (some s.nextId,
       { instance_cache :=
           if lifecycle != .PER_TEST then (classPath, s.nextId) :: s.instance_cache
           else s.instance_cache
         nextId := s.nextId + 1 })
    else
      (none, s)

/-- The configuration object `JSAdapter._send_command` injects
(`projectRoot`, `factoriesPath`, `moduleType`, `debug`). -/
structure JSConfig where
  projectRoot : String
  factoriesPath : String
  moduleType : String
  debug : Bool
deriving Repr, DecidableEq

/-- An outbound protocol command as built by the `JSAdapter` callers
(`run_test`, the lifecycle notifications and `shutdown`); none of them
sets `config`.  Payload fields (`test`, `lifecycle`, `data`) do not
affect config handling and are elided. -/
structure JSCommand where
  action : String
  config : Option JSConfig := none
deriving Repr, DecidableEq

/-- The config-injection step of `JSAdapter._send_command`
(`if "config" not in command: command["config"] = {...}`). -/
def addConfig (cfg : JSConfig) (command : JSCommand) : JSCommand :=
  match command.config with
  | none => { command with config := some cfg }
  | some _ => command

/-- The sequence of messages actually written to the child process over
a session of commands, each passed through `_send_command`. -/
def outboundMessages (cfg : JSConfig) (commands : List JSCommand) : List JSCommand :=
  commands.map (addConfig cfg)

/-- A sample executor (an adapter's `run_test` as the orchestrator sees
it) used to instantiate orchestrator statements on concrete inputs. -/
def passAll : TestSpec → TestResult :=
  fun t => { test := t, status := .PASSED }

-- Spec-side definition for the CONTAINS-superset refinement claim,
-- written from the spec's words, not from the code: "every key/value
-- pair of `e` present, recursively, in `a`" — each key of `e` exists in
-- `a`; a mapping-typed value must itself be recursively present; any
-- other value must be equal (Python `==`).
mutual

def specDictSubset (e a : JValue) : Bool :=
  match e, a with
  | .obj ekvs, .obj akvs => specSubFields ekvs akvs
  | _, _ => false
termination_by (sizeOf e, 0)

def specSubFields (ekvs akvs : List (String × JValue)) : Bool :=
  match ekvs with
  | [] => true
  | (k, ev) :: rest =>
    (match List.lookup k akvs with
     | some av =>
       (match ev with
        | .obj fs => specDictSubset (.obj fs) av
        | _ => pyEq av ev)
     | none => false) && specSubFields rest akvs
termination_by (sizeOf ekvs, 1)

end

/-- The per-element matching rule of `_check_list_contains`: a
mapping-typed expected element matches an actual element through
CONTAINS recursion, any other expected element through direct
equality. -/
def elemMatchesOne (x e : JValue) : Bool :=
  match e with
  | .obj fs => checkContains x (.obj fs)
  | _ => pyEq x e

theorem checkListAll_iff (xs es : List JValue) :
    checkListAll xs es = true ↔ ∀ e ∈ es, ∃ x ∈ xs, elemMatchesOne x e = true := by
  induction es with
  | nil => simp [checkListAll]
  | cons e rest ih =>
    cases e <;>
      simp [checkListAll, elemMatchesOne, Bool.and_eq_true, ih, List.any_eq_true,
        List.forall_mem_cons]

theorem checkListAll_perm (xs xs' es : List JValue) (h : xs.Perm xs') :
    checkListAll xs es = checkListAll xs' es := by
  cases hx : checkListAll xs es <;> cases hy : checkListAll xs' es <;> try rfl
  · rw [checkListAll_iff] at hy
    rw [← Bool.not_eq_true, checkListAll_iff] at hx
    exact absurd (fun e he => (hy e he).imp fun x hx => ⟨(h.mem_iff).mpr hx.1, hx.2⟩) hx
  · rw [checkListAll_iff] at hx
    rw [← Bool.not_eq_true, checkListAll_iff] at hy
    exact absurd (fun e he => (hx e he).imp fun x hxm => ⟨(h.mem_iff).mp hxm.1, hxm.2⟩) hy

/-- C1: CONTAINS list matching is unordered subset matching: for an
actual list `a` and expected list `e`, the match succeeds iff every
element of `e` matches some element of `a` (mapping-typed expected
elements recurse with CONTAINS semantics, other expected elements
require direct equality); the verdict is invariant under permutation of
`a`; and concretely `[3,1,2]` CONTAINS `[1,2]` while `[1,2]` does not
CONTAIN `[1,2,3]`. -/
theorem contains_list_unordered_subset (a a' e : List JValue) (hperm : a.Perm a') :
    (checkExpectation (.list a) ⟨.CONTAINS, .list e⟩ = true ↔
      ∀ x ∈ e, ∃ y ∈ a, elemMatchesOne y x = true)
    ∧ checkExpectation (.list a) ⟨.CONTAINS, .list e⟩
        = checkExpectation (.list a') ⟨.CONTAINS, .list e⟩
    ∧ checkExpectation (.list [.int 3, .int 1, .int 2])
        ⟨.CONTAINS, .list [.int 1, .int 2]⟩ = true
    ∧ checkExpectation (.list [.int 1, .int 2])
        ⟨.CONTAINS, .list [.int 1, .int 2, .int 3]⟩ = false := by
  refine ⟨?_, ?_, ?_, ?_⟩
  · simpa [checkExpectation, checkContains, checkListContains] using checkListAll_iff a e
  · simpa [checkExpectation, checkContains, checkListContains] using
      checkListAll_perm a a' e hperm
  · simp [checkExpectation, checkContains, checkListContains, checkListAll, pyEq, List.any]
  · simp [checkExpectation, checkContains, checkListContains, checkListAll, pyEq, List.any]

theorem contains_list_unordered_subset_app :
    List.Perm [JValue.int 3, JValue.int 1, JValue.int 2]
      [JValue.int 1, JValue.int 2, JValue.int 3]
    ∧ checkExpectation (.list [JValue.int 3, JValue.int 1, JValue.int 2])
        ⟨.CONTAINS, .list [JValue.int 1, JValue.int 2]⟩
      = checkExpectation (.list [JValue.int 1, JValue.int 2, JValue.int 3])
        ⟨.CONTAINS, .list [JValue.int 1, JValue.int 2]⟩ := by
  have hp : List.Perm [JValue.int 3, JValue.int 1, JValue.int 2]
      [JValue.int 1, JValue.int 2, JValue.int 3] :=
    (List.Perm.swap (JValue.int 1) (JValue.int 3) [JValue.int 2]).trans
      (List.Perm.cons (JValue.int 1) (List.Perm.swap (JValue.int 2) (JValue.int 3) []))
  exact ⟨hp, (contains_list_unordered_subset _ _ _ hp).2.1⟩

/-- C8: for every expectation whose type is EXACT and every actual
value `v`, the match succeeds iff `v == expect.value` under Python
equality. -/
theorem exact_match_iff (v : JValue) (expect : Expectation) (h : expect.type = .EXACT) :
    checkExpectation v expect = true ↔ pyEq v expect.value = true := by
  obtain ⟨t, val⟩ := expect
  cases h
  simp [checkExpectation]

theorem exact_match_iff_app :
    (Expectation.mk .EXACT (.int 7)).type = .EXACT
    ∧ (checkExpectation (.int 7) ⟨.EXACT, .int 7⟩ = true ↔
        pyEq (.int 7) (.int 7) = true) :=
  ⟨rfl, exact_match_iff (.int 7) ⟨.EXACT, .int 7⟩ rfl⟩

theorem jval_sizeOf_pos (e : JValue) : 0 < sizeOf e := by
  cases e <;> simp_arith

theorem list_sizeOf_pos {α : Type} [SizeOf α] (l : List α) : 0 < sizeOf l := by
  cases l <;> simp_arith

theorem pyEq_contains_aux : ∀ n : Nat,
    (∀ a e : JValue, sizeOf e ≤ n → pyEq a e = true → checkContains a e = true)
    ∧ (∀ xs es : List JValue, sizeOf es ≤ n → pyEqList xs es = true → checkListAll xs es = true)
    ∧ (∀ akvs ekvs : List (String × JValue), sizeOf ekvs ≤ n →
        pyEqFields akvs ekvs = true → checkPairs akvs ekvs = true) := by
  intro n
  induction n with
  | zero =>
    refine ⟨fun a e h _ => absurd h ?_, fun xs es h _ => absurd h ?_,
      fun akvs ekvs h _ => absurd h ?_⟩
    · have := jval_sizeOf_pos e; omega
    · have := list_sizeOf_pos es; omega
    · have := list_sizeOf_pos ekvs; omega
  | succ n ih =>
    obtain ⟨ih1, ih2, ih3⟩ := ih
    refine ⟨?_, ?_, ?_⟩
    · intro a e hsz heq
      cases e with
      | list es =>
        cases a <;> simp [pyEq] at heq
        case list xs =>
          have hsz' : sizeOf es ≤ n := by simp_arith at hsz; omega
          simpa [checkContains, checkListContains] using ih2 xs es hsz' heq
      | obj ekvs =>
        cases a <;> simp [pyEq, Bool.and_eq_true] at heq
        case obj akvs =>
          have hsz' : sizeOf ekvs ≤ n := by simp_arith at hsz; omega
          simpa [checkContains, toDict] using ih3 akvs ekvs hsz' heq.2
      | null => simpa [checkContains] using heq
      | bool b => simpa [checkContains] using heq
      | int m => simpa [checkContains] using heq
      | str st => simpa [checkContains] using heq
    · intro xs es hsz heq
      cases es with
      | nil => simp [checkListAll]
      | cons e rest =>
        cases xs with
        | nil => simp [pyEqList] at heq
        | cons x xs' =>
          simp [pyEqList, Bool.and_eq_true] at heq
          obtain ⟨h1, h2⟩ := heq
          have hszE : sizeOf e ≤ n := by simp_arith at hsz; omega
          have hszR : sizeOf rest ≤ n := by
            have := jval_sizeOf_pos e; simp_arith at hsz; omega
          rw [checkListAll_iff]
          intro el hel
          rcases List.mem_cons.mp hel with rfl | hel'
          · refine ⟨x, List.mem_cons_self _ _, ?_⟩
            cases el <;> simp [elemMatchesOne] <;>
              first
                | exact ih1 x _ hszE h1
                | simpa [pyEq] using h1
          · have hrest := (checkListAll_iff xs' rest).mp (ih2 xs' rest hszR h2) el hel'
            exact hrest.imp fun y hy => ⟨List.mem_cons_of_mem _ hy.1, hy.2⟩
    · intro akvs ekvs hsz heq
      cases ekvs with
      | nil => simp [checkPairs]
      | cons kv rest =>
        obtain ⟨k, ev⟩ := kv
        simp [pyEqFields, Bool.and_eq_true] at heq
        obtain ⟨h1, h2⟩ := heq
        have hszE : sizeOf ev ≤ n := by simp_arith at hsz; omega
        have hszR : sizeOf rest ≤ n := by
          have := jval_sizeOf_pos ev; simp_arith at hsz; omega
        cases hl : List.lookup k akvs with
        | none => rw [hl] at h1; simp at h1
        | some av =>
          rw [hl] at h1
          simp at h1
          simp only [checkPairs, hl, Bool.and_eq_true]
          refine ⟨?_, ih3 akvs rest hszR h2⟩
          cases ev with
          | obj fs => exact ih1 av _ hszE h1
          | list es =>
            cases av <;> simp [pyEq] at h1
            case list ays =>
              have hszL : sizeOf es ≤ n := by simp_arith at hszE; omega
              simpa [checkListContains] using ih2 ays es hszL h1
          | null => simpa [pyEq] using h1
          | bool b => simpa using h1
          | int m => simpa using h1
          | str st => simpa using h1

theorem contains_of_pyEq (a e : JValue) (h : pyEq a e = true) :
    checkContains a e = true :=
  (pyEq_contains_aux (sizeOf e)).1 a e le_rfl h

theorem checkListAll_of_pyEqList (xs es : List JValue) (h : pyEqList xs es = true) :
    checkListAll xs es = true :=
  (pyEq_contains_aux (sizeOf es)).2.1 xs es le_rfl h

theorem specSubset_contains_aux : ∀ n : Nat,
    (∀ e a : JValue, sizeOf e ≤ n → specDictSubset e a = true → checkContains a e = true)
    ∧ (∀ ekvs akvs : List (String × JValue), sizeOf ekvs ≤ n →
        specSubFields ekvs akvs = true → checkPairs akvs ekvs = true) := by
  intro n
  induction n with
  | zero =>
    refine ⟨fun e a h _ => absurd h ?_, fun ekvs akvs h _ => absurd h ?_⟩
    · have := jval_sizeOf_pos e; omega
    · have := list_sizeOf_pos ekvs; omega
  | succ n ih =>
    obtain ⟨ih1, ih2⟩ := ih
    refine ⟨?_, ?_⟩
    · intro e a hsz heq
      cases e <;> cases a <;> simp [specDictSubset] at heq
      case obj.obj ekvs akvs =>
        have hsz' : sizeOf ekvs ≤ n := by simp_arith at hsz; omega
        simpa [checkContains, toDict] using ih2 ekvs akvs hsz' heq
    · intro ekvs akvs hsz heq
      cases ekvs with
      | nil => simp [checkPairs]
      | cons kv rest =>
        obtain ⟨k, ev⟩ := kv
        simp [specSubFields, Bool.and_eq_true] at heq
        obtain ⟨h1, h2⟩ := heq
        have hszE : sizeOf ev ≤ n := by simp_arith at hsz; omega
        have hszR : sizeOf rest ≤ n := by
          have := jval_sizeOf_pos ev; simp_arith at hsz; omega
        cases hl : List.lookup k akvs with
        | none => rw [hl] at h1; simp at h1
        | some av =>
          rw [hl] at h1
          simp at h1
          simp only [checkPairs, hl, Bool.and_eq_true]
          refine ⟨?_, ih2 rest akvs hszR h2⟩
          cases ev with
          | obj fs => exact ih1 _ av hszE h1
          | list es =>
            cases av <;> simp [pyEq] at h1
            case list ays =>
              simpa [checkListContains] using checkListAll_of_pyEqList ays es h1
          | null => simpa [pyEq] using h1
          | bool b => simpa using h1
          | int m => simpa using h1
          | str st => simpa using h1

theorem checkPairs_missing_key (akvs ekvs : List (String × JValue)) (k : String) (v : JValue)
    (hmem : (k, v) ∈ ekvs) (hmiss : List.lookup k akvs = none) :
    checkPairs akvs ekvs = false := by
  induction ekvs with
  | nil => cases hmem
  | cons kv rest ih =>
    obtain ⟨k', ev⟩ := kv
    rcases List.mem_cons.mp hmem with heq | hmem'
    · injection heq with hk hv
      subst hk
      simp [checkPairs, hmiss]
    · simp [checkPairs, ih hmem', Bool.and_false]

/-- C6: if every key/value pair of the expected mapping `e` is present,
recursively, in the actual mapping `a`, then CONTAINS matching of `a`
against `e` succeeds regardless of extra keys in `a`; and a key present
in the expected mapping but missing from the normalized actual mapping
makes the match false. -/
theorem contains_superset_match (e a : JValue) (h : specDictSubset e a = true) :
    checkExpectation a ⟨.CONTAINS, e⟩ = true
    ∧ ∀ (akvs ekvs : List (String × JValue)) (k : String) (v : JValue),
        (k, v) ∈ ekvs → List.lookup k akvs = none →
        checkExpectation (.obj akvs) ⟨.CONTAINS, .obj ekvs⟩ = false := by
  constructor
  · simpa [checkExpectation] using (specSubset_contains_aux (sizeOf e)).1 e a le_rfl h
  · intro akvs ekvs k v hmem hmiss
    simpa [checkExpectation, checkContains, toDict] using
      checkPairs_missing_key akvs ekvs k v hmem hmiss

theorem contains_superset_match_app :
    specDictSubset (.obj [("x", .int 1)]) (.obj [("x", .int 1), ("y", .int 2)]) = true
    ∧ checkExpectation (.obj [("x", .int 1), ("y", .int 2)])
        ⟨.CONTAINS, .obj [("x", .int 1)]⟩ = true := by
  have h : specDictSubset (.obj [("x", .int 1)]) (.obj [("x", .int 1), ("y", .int 2)])
      = true := by
    simp [specDictSubset, specSubFields, pyEq, List.lookup]
  exact ⟨h, (contains_superset_match _ _ h).1⟩

/-- C3: the claim fails on the code — `JSAdapter._send_command` adds the
configuration to every outbound command that lacks a `config` key, and
no caller ever sets one, so every outbound command (not only the first)
carries the configuration. -/
theorem js_config_attached_to_every_command (cfg : JSConfig) :
    outboundMessages cfg [{ action := "run" }, { action := "lifecycle" }]
      = [{ action := "run", config := some cfg },
         { action := "lifecycle", config := some cfg }] := rfl

/-- C2 counterexample: a suite whose default target is set to the empty
string has a default target in the claim's sense, yet a relative test
target is not concatenated against it — the runner's `if suite.target:`
truthiness guard treats it as absent and yields a structural ERROR
result instead of running the resolved test. -/
theorem suite_empty_target_counterexample :
    suiteStep passAll (some "") { target := ".getById" }
      = { test := { target := ".getById" }
          status := .ERROR
          message := some "Relative target '.getById' but suite has no default target" }
    ∧ suiteStep passAll (some "") { target := ".getById" }
        ≠ passAll { target := ("" ++ ".getById" : String) } := by
  constructor
  · rfl
  · intro h
    exact absurd (congrArg TestResult.status h) (by decide)

/-- C2 (amended): for a suite test whose target is relative (starts with
`.`), when the suite has a *non-empty* default target the orchestrator
runs a new TestSpec whose target is the string concatenation of the
suite target and the relative target; every other field of the TestSpec
is carried over unchanged (the original is never mutated —
`model_copy` materializes a new value). -/
theorem suite_relative_target_resolution (runTest : TestSpec → TestResult)
    (suite : SuiteSpec) (test : TestSpec) (st : String)
    (h1 : suite.target = some st) (h0 : st ≠ "")
    (h2 : startsWithDot test.target = true) :
    suiteStep runTest suite.target test = runTest { test with target := st ++ test.target }
    ∧ ({ test with target := st ++ test.target } : TestSpec).target = st ++ test.target
    ∧ ({ test with target := st ++ test.target } : TestSpec).description = test.description
    ∧ ({ test with target := st ++ test.target } : TestSpec).given = test.given
    ∧ ({ test with target := st ++ test.target } : TestSpec).expect = test.expect
    ∧ ({ test with target := st ++ test.target } : TestSpec).throws = test.throws
    ∧ ({ test with target := st ++ test.target } : TestSpec).mocks = test.mocks
    ∧ ({ test with target := st ++ test.target } : TestSpec).timeout_ms = test.timeout_ms
    ∧ run_tests runTest ⟨"0.1", [⟨suite.name, suite.target, [test]⟩], []⟩
        = [runTest { test with target := st ++ test.target }] := by
  have hstep : suiteStep runTest suite.target test
      = runTest { test with target := st ++ test.target } := by
    rw [h1]
    simp [suiteStep, h2, truthyStr, bne_iff_ne, h0]
  refine ⟨hstep, rfl, rfl, rfl, rfl, rfl, rfl, rfl, ?_⟩
  simp [run_tests, hstep]

theorem suite_relative_target_resolution_app :
    ("UserService" : String) ≠ ""
    ∧ startsWithDot ".getById" = true
    ∧ suiteStep passAll (some "UserService") { target := ".getById" }
        = passAll { target := "UserService.getById" } := by
  refine ⟨by decide, by decide, ?_⟩
  exact (suite_relative_target_resolution passAll
    ⟨"users", some "UserService", [{ target := ".getById" }]⟩
    { target := ".getById" } "UserService" rfl (by decide) (by decide)).1

/-- C4: under the SHARED lifecycle, once a resolution of a class path
has produced an instance, resolving the same path again is a cache hit
returning the identical instance with the registry state unchanged (no
new construction); under PER_TEST every resolution constructs a fresh
instance (the next counter value), never reads the cache (the result is
independent of its contents) and never writes it. -/
theorem instance_lifecycle_cache (env : BuildEnv) (path : String) (s s1 : RegistryState)
    (inst : Nat)
    (hfirst : getInstance .SHARED env path s = (some inst, s1))
    (hbuild : (env.factoryWorks path || env.zeroArgWorks path) = true) :
    getInstance .SHARED env path s1 = (some inst, s1)
    ∧ getInstance .PER_TEST env path s
        = (some s.nextId, { instance_cache := s.instance_cache, nextId := s.nextId + 1 })
    ∧ (getInstance .PER_TEST env path ((getInstance .PER_TEST env path s).2)).1
        = some (s.nextId + 1)
    ∧ (getInstance .PER_TEST env path ((getInstance .PER_TEST env path s).2)).1
        ≠ (getInstance .PER_TEST env path s).1
    ∧ ∀ cache1 cache2 : List (String × Nat),
        (getInstance .PER_TEST env path ⟨cache1, s.nextId⟩).1
          = (getInstance .PER_TEST env path ⟨cache2, s.nextId⟩).1 := by
  have hpt : ∀ st : RegistryState, getInstance .PER_TEST env path st
      = (some st.nextId, { instance_cache := st.instance_cache, nextId := st.nextId + 1 }) := by
    intro st
    rcases hf : env.factoryWorks path with _ | _ <;>
      rcases hz : env.zeroArgWorks path with _ | _ <;>
      simp_all [getInstance]
  have hshared : getInstance .SHARED env path s1 = (some inst, s1) := by
    rcases hl : List.lookup path s.instance_cache with _ | i
    · rcases hf : env.factoryWorks path with _ | _
      · rcases hz : env.zeroArgWorks path with _ | _
        · simp_all [getInstance]
        · simp only [getInstance, hl, hf, hz] at hfirst
          simp at hfirst
          obtain ⟨hinst, hs1⟩ := hfirst
          subst hinst hs1
          simp [getInstance, List.lookup]
      · simp only [getInstance, hl, hf] at hfirst
        simp at hfirst
        obtain ⟨hinst, hs1⟩ := hfirst
        subst hinst hs1
        simp [getInstance, List.lookup]
    · simp only [getInstance, hl] at hfirst
      simp at hfirst
      obtain ⟨hinst, hs1⟩ := hfirst
      subst hinst hs1
      simp [getInstance, hl]
  refine ⟨hshared, hpt s, ?_, ?_, ?_⟩
  · rw [hpt s]; simp [hpt]
  · rw [hpt s]; simp [hpt]
  · intro cache1 cache2
    rw [hpt ⟨cache1, s.nextId⟩, hpt ⟨cache2, s.nextId⟩]

theorem instance_lifecycle_cache_app :
    getInstance .SHARED ⟨fun _ => true, fun _ => false⟩ "m.Svc" ⟨[], 0⟩
      = (some 0, ⟨[("m.Svc", 0)], 1⟩)
    ∧ ((⟨fun _ => true, fun _ => false⟩ : BuildEnv).factoryWorks "m.Svc"
        || (⟨fun _ => true, fun _ => false⟩ : BuildEnv).zeroArgWorks "m.Svc") = true
    ∧ getInstance .SHARED ⟨fun _ => true, fun _ => false⟩ "m.Svc" ⟨[("m.Svc", 0)], 1⟩
        = (some 0, ⟨[("m.Svc", 0)], 1⟩) := by
  refine ⟨rfl, rfl, ?_⟩
  exact (instance_lifecycle_cache ⟨fun _ => true, fun _ => false⟩ "m.Svc"
    ⟨[], 0⟩ ⟨[("m.Svc", 0)], 1⟩ 0 rfl rfl).1

/-- C5: when the invoked target raises a failure (and the invocation is
not a timeout), the result status is ERROR if the test declares no
`throws` expectation; if it does declare one, the raised failure is
routed through the failure-matcher and the status is PASSED when it
matches and FAILED when it does not. -/
theorem unexpected_failure_routing (test : TestSpec) (d : Option Nat) (c : Call) (e : PyExc)
    (hres : c.result = .exc e)
    (hnotime : ∀ t, effectiveTimeout test d = some t → c.duration_ms ≤ t) :
    (test.throws = none → (runTestBase test d c).status = .ERROR)
    ∧ ∀ th, test.throws = some th →
        (runTestBase test d c).status = (if checkThrows e th then .PASSED else .FAILED) := by
  have hout : runWithTimeout c (effectiveTimeout test d) = .raised e := by
    cases ht : effectiveTimeout test d with
    | none => simp [runWithTimeout, hres]
    | some t =>
      have hle := hnotime t ht
      simp [runWithTimeout, hres, Nat.not_lt.mpr hle]
  constructor
  · intro hth
    simp [runTestBase, hout, hth]
  · intro th hth
    simp [runTestBase, hout, hth]

theorem unexpected_failure_routing_app :
    ({ target := "m.f" } : TestSpec).throws = none
    ∧ (runTestBase { target := "m.f" } none ⟨5, .exc ⟨"ValueError", "boom"⟩⟩).status
        = .ERROR :=
  ⟨rfl,
    (unexpected_failure_routing { target := "m.f" } none ⟨5, .exc ⟨"ValueError", "boom"⟩⟩
      ⟨"ValueError", "boom"⟩ rfl (fun t ht => absurd ht (by simp [effectiveTimeout]))).1 rfl⟩

/-- C9: an invocation that exceeds its (effective) timeout budget yields
a FAILED result — not ERROR — whose message is
`Test timed out after {timeout_ms}ms` carrying the configured timeout
value; the Python adapter's `run_test` (with mocks installed cleanly)
classifies it identically. -/
theorem timeout_is_failure (test : TestSpec) (d : Option Nat) (c : Call) (t : Nat)
    (ht : effectiveTimeout test d = some t) (hover : t < c.duration_ms) :
    (runTestBase test d c).status = .FAILED
    ∧ (runTestBase test d c).message
        = some ("Test timed out after " ++ toString t ++ "ms")
    ∧ (runTestBase test d c).status ≠ .ERROR
    ∧ runTestPython test d none c = runTestBase test d c := by
  have hout : runWithTimeout c (effectiveTimeout test d) = .timeout t := by
    rw [ht]; simp [runWithTimeout, hover]
  refine ⟨?_, ?_, ?_, rfl⟩ <;> simp [runTestBase, hout]

theorem timeout_is_failure_app :
    effectiveTimeout { target := "m.f", timeout_ms := some 10 } none = some 10
    ∧ (10 : Nat) < 100
    ∧ (runTestBase { target := "m.f", timeout_ms := some 10 } none ⟨100, .ok .null⟩).message
        = some "Test timed out after 10ms" := by
  refine ⟨rfl, by decide, ?_⟩
  have h := (timeout_is_failure { target := "m.f", timeout_ms := some 10 } none
    ⟨100, .ok .null⟩ 10 rfl (by decide)).2.1
  simpa using h

/-- C10: when a test declares both `expect` and `throws` and the
invocation returns normally (no timeout), the result is FAILED with the
message that the expected exception did not occur, and the `expect`
assertion is never evaluated — the conclusion holds for every value of
the `expect` field. -/
theorem throws_precedence_over_expect (test : TestSpec) (d : Option Nat) (c : Call)
    (v : JValue) (th : ThrowsExpectation)
    (hres : c.result = .ok v)
    (hnotime : ∀ t, effectiveTimeout test d = some t → c.duration_ms ≤ t)
    (hth : test.throws = some th) :
    (runTestBase test d c).status = .FAILED
    ∧ (runTestBase test d c).message
        = some ("Expected exception " ++ pyStrOpt th.type ++ " but call succeeded")
    ∧ ∀ e' : Option Expectation,
        (runTestBase { test with expect := e' } d c).status = .FAILED
        ∧ (runTestBase { test with expect := e' } d c).message
            = some ("Expected exception " ++ pyStrOpt th.type ++ " but call succeeded") := by
  have hout : runWithTimeout c (effectiveTimeout test d) = .value v := by
    cases ht : effectiveTimeout test d with
    | none => simp [runWithTimeout, hres]
    | some t =>
      have hle := hnotime t ht
      simp [runWithTimeout, hres, Nat.not_lt.mpr hle]
  refine ⟨?_, ?_, ?_⟩
  · simp [runTestBase, hout, hth]
  · simp [runTestBase, hout, hth]
  · intro e'
    constructor <;>
    · simp only [runTestBase]
      rw [show effectiveTimeout { test with expect := e' } d = effectiveTimeout test d
            from rfl,
        hout]
      simp [hth]

theorem throws_precedence_over_expect_app :
    (({ target := "m.f", expect := some ⟨.EXACT, .int 1⟩,
        throws := some ⟨some "ValueError", none, none⟩ } : TestSpec)).throws
      = some ⟨some "ValueError", none, none⟩
    ∧ (runTestBase ({ target := "m.f", expect := some ⟨.EXACT, .int 1⟩,
                      throws := some ⟨some "ValueError", none, none⟩ } : TestSpec)
          none ⟨1, .ok (.int 2)⟩).message
        = some "Expected exception ValueError but call succeeded" := by
  refine ⟨rfl, ?_⟩
  have h := (throws_precedence_over_expect
    ({ target := "m.f", expect := some ⟨.EXACT, .int 1⟩,
       throws := some ⟨some "ValueError", none, none⟩ } : TestSpec) none ⟨1, .ok (.int 2)⟩
    (.int 2) ⟨some "ValueError", none, none⟩ rfl
    (fun t ht => absurd ht (by simp [effectiveTimeout])) rfl).2.1
  simpa using h

/-- C7 counterexample: an expectation whose `type` is the empty string
is a specified type under the claim's reading, yet `_check_throws`
treats it as a wildcard (Python truthiness of `throws.type`): a failure
whose type name is `ValueError` matches an expectation demanding type
`""` even though the names differ. -/
theorem throws_empty_type_counterexample :
    checkThrows ⟨"ValueError", "boom"⟩ ⟨some "", none, none⟩ = true
    ∧ ("ValueError" : String) ≠ "" := by
  refine ⟨?_, by decide⟩
  simp [checkThrows, truthyStr]

/-- C7 (amended): a raised failure matches a ThrowsExpectation iff every
type constraint specified as a *non-empty* string equals the failure's
type name, and every message constraint specified as a non-empty string
is a substring of the failure's message; absent or empty fields are
wildcards (an expectation with neither matches any failure). -/
theorem throws_match_characterization (exc : PyExc) (th : ThrowsExpectation) :
    checkThrows exc th = true ↔
      (∀ t, th.type = some t → t ≠ "" → exc.typeName = t)
      ∧ (∀ m, th.message = some m → m ≠ "" → isSubstring m exc.message = true) := by
  obtain ⟨ty, msg, code⟩ := th
  cases ty with
  | none =>
    cases msg with
    | none => simp [checkThrows, truthyStr]
    | some m =>
      by_cases hm : m = "" <;>
        simp [checkThrows, truthyStr, hm, bne_iff_ne]
  | some t =>
    by_cases ht : t = ""
    · cases msg with
      | none => simp [checkThrows, truthyStr, ht]
      | some m =>
        by_cases hm : m = "" <;>
          simp [checkThrows, truthyStr, ht, hm, bne_iff_ne]
    · cases msg with
      | none => simp [checkThrows, truthyStr, ht, bne_iff_ne]
      | some m =>
        by_cases hm : m = "" <;>
          simp [checkThrows, truthyStr, ht, hm, bne_iff_ne]

end BabelTest
